import Mathlib

/-!
# Risk dice simulator: verification of the specified core

A shallow embedding of `risk-dice-simulator.py` (loss calculation, outcome
precomputation, round resolution, battle loop, trial driver), with theorems
settling the specified properties.

Python `list.sort(reverse=True)` on a list of integers produces the unique
descending reordering of the list; it is embedded as a structural insertion
sort (`sortDesc`), proved below to be a descending-sorted permutation of its
input.  The in-place mutation performed by `list.sort` is made explicit by
`calculate_losses_st`, which returns the post-call contents of both caller
lists alongside the loss pair.  The process-wide random generator is embedded
as an infinite stream of raw draws together with a position (`Rng`);
`randint lo hi` consumes one raw draw and reduces it into `[lo, hi]`.
-/

namespace RiskDice

/-- Insert `x` into a descending-sorted list, keeping it descending. -/
def insertDesc (x : Nat) : List Nat → List Nat
  | [] => [x]
  | y :: ys => if y < x then x :: y :: ys else y :: insertDesc x ys

/-- Embedding of Python `l.sort(reverse=True)`: the descending sort of `l`. -/
def sortDesc (l : List Nat) : List Nat :=
  l.foldr insertDesc []

theorem insertDesc_perm (x : Nat) (l : List Nat) : (insertDesc x l).Perm (x :: l) := by
  induction l with
  | nil => simp [insertDesc]
  | cons y ys ih =>
    by_cases h : y < x
    · simp [insertDesc, h]
    · simp only [insertDesc, if_neg h]
      exact ((ih.cons y).trans (List.Perm.swap x y ys))

theorem sortDesc_perm (l : List Nat) : (sortDesc l).Perm l := by
  induction l with
  | nil => simp [sortDesc]
  | cons a l ih =>
    have : sortDesc (a :: l) = insertDesc a (sortDesc l) := rfl
    rw [this]
    exact (insertDesc_perm a (sortDesc l)).trans (ih.cons a)

theorem mem_insertDesc {a x : Nat} {l : List Nat} :
    a ∈ insertDesc x l ↔ a = x ∨ a ∈ l := by
  have := (insertDesc_perm x l).mem_iff (a := a)
  simpa using this

theorem sortDesc_sorted (l : List Nat) : (sortDesc l).Sorted (· ≥ ·) := by
  induction l with
  | nil => simp [sortDesc]
  | cons a l ih =>
    have key : ∀ m : List Nat, m.Sorted (· ≥ ·) → (insertDesc a m).Sorted (· ≥ ·) := by
      intro m
      induction m with
      | nil => intro _; simp [insertDesc]
      | cons y ys ihm =>
        intro hs
        rcases List.sorted_cons.mp hs with ⟨hy, hys⟩
        by_cases h : y < a
        · rw [insertDesc, if_pos h]
          refine List.sorted_cons.mpr ⟨?_, hs⟩
          intro b hb
          rcases List.mem_cons.mp hb with rfl | hb
          · omega
          · have := hy b hb; omega
        · rw [insertDesc, if_neg h]
          refine List.sorted_cons.mpr ⟨?_, ihm hys⟩
          intro b hb
          rcases mem_insertDesc.mp hb with rfl | hb
          · omega
          · exact hy b hb
    exact key (sortDesc l) ih

theorem length_sortDesc (l : List Nat) : (sortDesc l).length = l.length :=
  (sortDesc_perm l).length_eq

/-- The comparison loop of `calculate_losses`: walk the two (sorted) lists in
parallel — position `i` of each — and tally a defender loss when the
attacker's die is strictly greater, otherwise an attacker loss; unpaired
tails are ignored.  Returns `(attacker_losses, defender_losses)`. -/
def countLosses : List Nat → List Nat → Nat × Nat
  | a :: as, d :: ds =>
    let r := countLosses as ds
    if d < a then (r.1, r.2 + 1) else (r.1 + 1, r.2)
  | _, _ => (0, 0)

/-- Embedding of `calculate_losses`, with the in-place sorts made explicit:
returns the loss pair together with the post-call contents of the two
caller-visible lists (Python's `list.sort(reverse=True)` mutates them). -/
def calculate_losses_st (attacker_rolls defender_rolls : List Nat) :
    (Nat × Nat) × List Nat × List Nat :=
  let a := sortDesc attacker_rolls
  let d := sortDesc defender_rolls
  (countLosses a d, a, d)

/-- The return value of `calculate_losses`. -/
def calculate_losses (attacker_rolls defender_rolls : List Nat) : Nat × Nat :=
  (calculate_losses_st attacker_rolls defender_rolls).1

/-- The reference rule as the specification words it: sort both sequences
descending, compare the i-th highest attacker die with the i-th highest
defender die for `i` in `0..min(len(attacker_rolls), len(defender_rolls))`,
count one defender loss when the attacker's die is strictly greater and one
attacker loss otherwise, ignoring unpaired dice. -/
def referenceLosses (attacker_rolls defender_rolls : List Nat) : Nat × Nat :=
  let a := sortDesc attacker_rolls
  let d := sortDesc defender_rolls
  let n := min attacker_rolls.length defender_rolls.length
  ((List.range n).countP (fun i => !decide (d.getD i 0 < a.getD i 0)),
   (List.range n).countP (fun i => decide (d.getD i 0 < a.getD i 0)))

theorem countLosses_eq_countP (a d : List Nat) :
    countLosses a d =
      ((List.range (min a.length d.length)).countP
         (fun i => !decide (d.getD i 0 < a.getD i 0)),
       (List.range (min a.length d.length)).countP
         (fun i => decide (d.getD i 0 < a.getD i 0))) := by
  induction a generalizing d with
  | nil => simp [countLosses]
  | cons x as ih =>
    cases d with
    | nil => simp [countLosses]
    | cons y ds =>
      have hmin : min (x :: as).length (y :: ds).length =
          min as.length ds.length + 1 := by
        simp [List.length_cons]; omega
      rw [hmin, List.range_succ_eq_map]
      by_cases h : y < x
      · simp [countLosses, h, ih, List.countP_cons, List.countP_map, Function.comp_def]
      · simp [countLosses, h, ih, List.countP_cons, List.countP_map, Function.comp_def]

theorem countLosses_sum (a d : List Nat) :
    (countLosses a d).1 + (countLosses a d).2 = min a.length d.length := by
  induction a generalizing d with
  | nil => simp [countLosses]
  | cons x as ih =>
    cases d with
    | nil => simp [countLosses]
    | cons y ds =>
      by_cases h : y < x <;>
        · simp only [countLosses, if_pos, if_neg, h, ite_true, ite_false,
            List.length_cons]
          have := ih ds
          omega

theorem calculate_losses_sum (ar dr : List Nat) :
    (calculate_losses ar dr).1 + (calculate_losses ar dr).2 =
      min ar.length dr.length := by
  have := countLosses_sum (sortDesc ar) (sortDesc dr)
  simpa [calculate_losses, calculate_losses_st, length_sortDesc] using this

/-- Claim C1: `calculate_losses` implements exactly the reference comparison rule
(sort descending, pair positionally, strict-greater means defender loss, tie
favors defender); on `[3]` vs `[3]` it yields `(1, 0)`; and the two losses
always sum to the number of paired dice, `min` of the input lengths. -/
theorem calculate_losses_matches_reference (ar dr : List Nat) :
    calculate_losses ar dr = referenceLosses ar dr ∧
    calculate_losses [3] [3] = (1, 0) ∧
    (calculate_losses ar dr).1 + (calculate_losses ar dr).2 =
      min ar.length dr.length := by
  refine ⟨?_, by decide, calculate_losses_sum ar dr⟩
  have h := countLosses_eq_countP (sortDesc ar) (sortDesc dr)
  simp only [calculate_losses, calculate_losses_st, referenceLosses]
  rw [h, length_sortDesc, length_sortDesc]

/-- The die faces `1..6`, in the order Python's `range(1, 7)` yields them. -/
def diceVals : List Nat := [1, 2, 3, 4, 5, 6]

/-- Embedding of `precompute_max_dice_rolls`: the nested loops over
`a1 a2 a3 d1 d2` (and `d3` when `MAX_DEFENDERS == 3`) append, in enumeration
order, the loss pair of each dice combination. -/
def precompute_max_dice_rolls (maxDefenders : Nat) : List (Nat × Nat) :=
  diceVals.flatMap fun a1 =>
  diceVals.flatMap fun a2 =>
  diceVals.flatMap fun a3 =>
  diceVals.flatMap fun d1 =>
  diceVals.flatMap fun d2 =>
    if maxDefenders = 3 then
      diceVals.map fun d3 => calculate_losses [a1, a2, a3] [d1, d2, d3]
    else
      [calculate_losses [a1, a2, a3] [d1, d2]]

/-- The full (non-deduplicated) Cartesian product of 3 attacker die values and
2 or 3 defender die values in `[1,6]`, in the same enumeration order as the
table-building loops: the generating combinations of the table entries. -/
def diceCombos (maxDefenders : Nat) : List (List Nat × List Nat) :=
  diceVals.flatMap fun a1 =>
  diceVals.flatMap fun a2 =>
  diceVals.flatMap fun a3 =>
  diceVals.flatMap fun d1 =>
  diceVals.flatMap fun d2 =>
    if maxDefenders = 3 then
      diceVals.map fun d3 => ([a1, a2, a3], [d1, d2, d3])
    else
      [([a1, a2, a3], [d1, d2])]

theorem length_flatMap_const {α β : Type} (l : List α) (f : α → List β) (n : Nat)
    (h : ∀ a ∈ l, (f a).length = n) : (l.flatMap f).length = l.length * n := by
  induction l with
  | nil => simp
  | cons a t ih =>
    have h1 : (f a).length = n := h a (List.mem_cons_self a t)
    have h2 := ih (fun b hb => h b (List.mem_cons_of_mem a hb))
    rw [List.flatMap_cons, List.length_append, h1, h2, List.length_cons,
      Nat.succ_mul, Nat.add_comm]

theorem precompute_eq_map (md : Nat) :
    precompute_max_dice_rolls md =
      (diceCombos md).map (fun p : List Nat × List Nat => calculate_losses p.1 p.2) := by
  by_cases h : md = 3 <;>
    simp [precompute_max_dice_rolls, diceCombos, List.map_flatMap, List.map_map, h,
      Function.comp_def]

theorem precompute_std_length : (precompute_max_dice_rolls 2).length = 7776 := by
  unfold precompute_max_dice_rolls
  have l5 : ∀ a1 a2 a3 d1 : Nat,
      (diceVals.flatMap fun d2 =>
        if (2 : Nat) = 3 then diceVals.map fun d3 => calculate_losses [a1, a2, a3] [d1, d2, d3]
        else [calculate_losses [a1, a2, a3] [d1, d2]]).length = 6 := fun a1 a2 a3 d1 => by
    rw [length_flatMap_const _ _ 1 (fun d2 _ => by simp)]; decide
  have l4 : ∀ a1 a2 a3 : Nat, (diceVals.flatMap fun d1 =>
      diceVals.flatMap fun d2 =>
        if (2 : Nat) = 3 then diceVals.map fun d3 => calculate_losses [a1, a2, a3] [d1, d2, d3]
        else [calculate_losses [a1, a2, a3] [d1, d2]]).length = 36 := fun a1 a2 a3 => by
    rw [length_flatMap_const _ _ 6 (fun d1 _ => l5 a1 a2 a3 d1)]; decide
  have l3 : ∀ a1 a2 : Nat, (diceVals.flatMap fun a3 =>
      diceVals.flatMap fun d1 =>
      diceVals.flatMap fun d2 =>
        if (2 : Nat) = 3 then diceVals.map fun d3 => calculate_losses [a1, a2, a3] [d1, d2, d3]
        else [calculate_losses [a1, a2, a3] [d1, d2]]).length = 216 := fun a1 a2 => by
    rw [length_flatMap_const _ _ 36 (fun a3 _ => l4 a1 a2 a3)]; decide
  have l2 : ∀ a1 : Nat, (diceVals.flatMap fun a2 =>
      diceVals.flatMap fun a3 =>
      diceVals.flatMap fun d1 =>
      diceVals.flatMap fun d2 =>
        if (2 : Nat) = 3 then diceVals.map fun d3 => calculate_losses [a1, a2, a3] [d1, d2, d3]
        else [calculate_losses [a1, a2, a3] [d1, d2]]).length = 1296 := fun a1 => by
    rw [length_flatMap_const _ _ 216 (fun a2 _ => l3 a1 a2)]; decide
  rw [length_flatMap_const _ _ 1296 (fun a1 _ => l2 a1)]; decide

theorem precompute_cap_length : (precompute_max_dice_rolls 3).length = 46656 := by
  unfold precompute_max_dice_rolls
  have l5 : ∀ a1 a2 a3 d1 : Nat,
      (diceVals.flatMap fun d2 =>
        if (3 : Nat) = 3 then diceVals.map fun d3 => calculate_losses [a1, a2, a3] [d1, d2, d3]
        else [calculate_losses [a1, a2, a3] [d1, d2]]).length = 36 := fun a1 a2 a3 d1 => by
    rw [length_flatMap_const _ _ 6 (fun d2 _ => by simp [diceVals])]; decide
  have l4 : ∀ a1 a2 a3 : Nat, (diceVals.flatMap fun d1 =>
      diceVals.flatMap fun d2 =>
        if (3 : Nat) = 3 then diceVals.map fun d3 => calculate_losses [a1, a2, a3] [d1, d2, d3]
        else [calculate_losses [a1, a2, a3] [d1, d2]]).length = 216 := fun a1 a2 a3 => by
    rw [length_flatMap_const _ _ 36 (fun d1 _ => l5 a1 a2 a3 d1)]; decide
  have l3 : ∀ a1 a2 : Nat, (diceVals.flatMap fun a3 =>
      diceVals.flatMap fun d1 =>
      diceVals.flatMap fun d2 =>
        if (3 : Nat) = 3 then diceVals.map fun d3 => calculate_losses [a1, a2, a3] [d1, d2, d3]
        else [calculate_losses [a1, a2, a3] [d1, d2]]).length = 1296 := fun a1 a2 => by
    rw [length_flatMap_const _ _ 216 (fun a3 _ => l4 a1 a2 a3)]; decide
  have l2 : ∀ a1 : Nat, (diceVals.flatMap fun a2 =>
      diceVals.flatMap fun a3 =>
      diceVals.flatMap fun d1 =>
      diceVals.flatMap fun d2 =>
        if (3 : Nat) = 3 then diceVals.map fun d3 => calculate_losses [a1, a2, a3] [d1, d2, d3]
        else [calculate_losses [a1, a2, a3] [d1, d2]]).length = 7776 := fun a1 => by
    rw [length_flatMap_const _ _ 1296 (fun a2 _ => l3 a1 a2)]; decide
  rw [length_flatMap_const _ _ 7776 (fun a1 _ => l2 a1)]; decide

theorem mem_diceCombos {md : Nat} {c : List Nat × List Nat} (hc : c ∈ diceCombos md) :
    c.1.length = 3 ∧ c.2.length = (if md = 3 then 3 else 2) := by
  simp only [diceCombos, List.mem_flatMap] at hc
  obtain ⟨a1, -, a2, -, a3, -, d1, -, d2, -, hc⟩ := hc
  split at hc
  · next h =>
    rw [List.mem_map] at hc
    obtain ⟨d3, -, rfl⟩ := hc
    simp [h]
  · next h =>
    rw [List.mem_singleton] at hc
    subst hc
    simp [h]

/-- Every entry of the precomputed table is the loss pair of a maximal dice
combination, so its two components sum to `min 3 md` = the defender cap. -/
theorem precompute_entry_sum {md : Nat} (hmd : md = 2 ∨ md = 3) {p : Nat × Nat}
    (hp : p ∈ precompute_max_dice_rolls md) : p.1 + p.2 = md := by
  rw [precompute_eq_map] at hp
  obtain ⟨c, hc, rfl⟩ := List.mem_map.mp hp
  have h := mem_diceCombos hc
  have hsum := calculate_losses_sum c.1 c.2
  rcases hmd with rfl | rfl <;> simp_all

/-- Claim C2: the precomputed table is exactly the image of the full non-deduplicated
Cartesian product of maximal dice combinations under `calculate_losses`, in
enumeration order — so its `k`-th entry is `calculate_losses` of the `k`-th
combination — and it has `6^5 = 7776` entries in standard mode
(`MAX_DEFENDERS = 2`) and `6^6 = 46656` entries in capital mode
(`MAX_DEFENDERS = 3`). -/
theorem precompute_table_correct (md : Nat) :
    precompute_max_dice_rolls md =
      (diceCombos md).map (fun p : List Nat × List Nat => calculate_losses p.1 p.2) ∧
    (precompute_max_dice_rolls 2).length = 7776 ∧
    (precompute_max_dice_rolls 3).length = 46656 :=
  ⟨precompute_eq_map md, precompute_std_length, precompute_cap_length⟩

/-- The process-wide pseudo-random source (Python's `random` module state):
an infinite stream of raw non-negative draws together with the position of
the next draw.  Each call to the generator consumes one raw draw. -/
structure Rng where
  stream : Nat → Nat
  pos : Nat

/-- Embedding of `random.randint(lo, hi)`: consumes one raw draw from the
stream and reduces it into the closed range `[lo, hi]`. -/
def randint (lo hi : Nat) (g : Rng) : Nat × Rng :=
  (lo + g.stream g.pos % (hi + 1 - lo), ⟨g.stream, g.pos + 1⟩)

/-- Embedding of `roll_one_die`: one uniformly random die face in `[1, 6]`. -/
def roll_one_die (g : Rng) : Nat × Rng := randint 1 6 g

/-- Embedding of the list comprehension
`[roll_one_die() for _ in range(n)]`: rolls `n` dice in order. -/
def rollN : Nat → Rng → List Nat × Rng
  | 0, g => ([], g)
  | n + 1, g =>
    let p := roll_one_die g
    let q := rollN n p.2
    (p.1 :: q.1, q.2)

/-- The process-lifetime globals of the simulator: `MAX_DEFENDERS`
(2 standard, 3 capital) and `PRECOMPUTED_ROLLS` (empty when the
`--no-precomputed-rolls` flag disables precomputation). -/
structure Config where
  maxDefenders : Nat
  table : List (Nat × Nat)

/-- Embedding of `roll_dice`: resolve one combat round.  Troop counts are
Python integers, so they are embedded as `Int`; `range(n)` of a negative `n`
is empty, hence the `Int.toNat` on the dice counts.  Returns
`((attacker_losses, defender_losses, is_max_roll), rng')`. -/
def roll_dice (cfg : Config) (attacking_troops defending_troops : Int) (g : Rng) :
    (Nat × Nat × Bool) × Rng :=
  let attackers : Int := min attacking_troops 3
  let defenders : Int := min defending_troops (cfg.maxDefenders : Int)
  let is_max_roll : Bool := decide (3 ≤ attackers ∧ (cfg.maxDefenders : Int) ≤ defenders)
  if 0 < cfg.table.length ∧ is_max_roll = true then
    let p := randint 0 (cfg.table.length - 1) g
    let e := cfg.table.getD p.1 (0, 0)
    ((e.1, e.2, is_max_roll), p.2)
  else
    let pa := rollN attackers.toNat g
    let pd := rollN defenders.toNat pa.2
    let l := calculate_losses pa.1 pd.1
    ((l.1, l.2, is_max_roll), pd.2)

theorem rollN_length (n : Nat) (g : Rng) : (rollN n g).1.length = n := by
  induction n generalizing g with
  | zero => rfl
  | succ n ih => simp [rollN, ih]

/-- Claim C3: `roll_dice` commits `min(attacking_troops, 3)` attacker dice and
`min(defending_troops, cap)` defender dice; the returned flag is true iff
both counts are maximal (3 and the cap); when the table is non-empty and the
round is maximal, the loss pair is the table entry at the index drawn by
`randint 0 (len - 1)`, which is always in bounds; otherwise the losses are
`calculate_losses` on freshly rolled dice — and the flag is still computed
the same way, so it is reported true for an otherwise-maximal round even
when the table is disabled. -/
theorem roll_dice_correct (cfg : Config)
    (hcap : cfg.maxDefenders = 2 ∨ cfg.maxDefenders = 3)
    (a d : Int) (ha : 0 ≤ a) (hd : 0 ≤ d) (g : Rng) :
    (roll_dice cfg a d g).1.2.2 =
      decide (min a 3 = 3 ∧ min d (cfg.maxDefenders : Int) = (cfg.maxDefenders : Int)) ∧
    (cfg.table ≠ [] → (roll_dice cfg a d g).1.2.2 = true →
      ∃ idx : Nat, idx < cfg.table.length ∧
        idx = (randint 0 (cfg.table.length - 1) g).1 ∧
        ((roll_dice cfg a d g).1.1, (roll_dice cfg a d g).1.2.1) =
          cfg.table.getD idx (0, 0)) ∧
    ((cfg.table = [] ∨ (roll_dice cfg a d g).1.2.2 = false) →
      ((roll_dice cfg a d g).1.1, (roll_dice cfg a d g).1.2.1) =
        calculate_losses (rollN (min a 3).toNat g).1
          (rollN (min d (cfg.maxDefenders : Int)).toNat (rollN (min a 3).toNat g).2).1) := by
  have hiff : (3 ≤ min a 3 ∧ (cfg.maxDefenders : Int) ≤ min d (cfg.maxDefenders : Int)) ↔
      (min a 3 = 3 ∧ min d (cfg.maxDefenders : Int) = (cfg.maxDefenders : Int)) := by
    constructor <;> intro h <;> exact ⟨by omega, by omega⟩
  by_cases hc : 0 < cfg.table.length ∧
      (decide (3 ≤ min a 3 ∧ (cfg.maxDefenders : Int) ≤ min d (cfg.maxDefenders : Int)) : Bool) = true
  · have hr : roll_dice cfg a d g =
        (((cfg.table.getD (randint 0 (cfg.table.length - 1) g).1 (0, 0)).1,
          (cfg.table.getD (randint 0 (cfg.table.length - 1) g).1 (0, 0)).2,
          decide (3 ≤ min a 3 ∧ (cfg.maxDefenders : Int) ≤ min d (cfg.maxDefenders : Int))),
         (randint 0 (cfg.table.length - 1) g).2) := by
      simp only [roll_dice]
      rw [if_pos hc]
    refine ⟨?_, ?_, ?_⟩
    · rw [hr]
      exact decide_eq_decide.mpr hiff
    · intro htab hmax
      refine ⟨(randint 0 (cfg.table.length - 1) g).1, ?_, rfl, by rw [hr]⟩
      have hlen := hc.1
      simp only [randint]
      have h1 : cfg.table.length - 1 + 1 - 0 = cfg.table.length := by omega
      rw [h1]
      simpa using Nat.mod_lt (g.stream g.pos) hlen
    · intro hcase
      rcases hcase with htab | hflagf
      · exact absurd hc.1 (by rw [htab]; simp)
      · rw [hr] at hflagf
        rw [hc.2] at hflagf
        cases hflagf
  · have hr : roll_dice cfg a d g =
        (((calculate_losses (rollN (min a 3).toNat g).1
             (rollN (min d (cfg.maxDefenders : Int)).toNat (rollN (min a 3).toNat g).2).1).1,
          (calculate_losses (rollN (min a 3).toNat g).1
             (rollN (min d (cfg.maxDefenders : Int)).toNat (rollN (min a 3).toNat g).2).1).2,
          decide (3 ≤ min a 3 ∧ (cfg.maxDefenders : Int) ≤ min d (cfg.maxDefenders : Int))),
         (rollN (min d (cfg.maxDefenders : Int)).toNat (rollN (min a 3).toNat g).2).2) := by
      simp only [roll_dice]
      rw [if_neg hc]
    refine ⟨?_, ?_, ?_⟩
    · rw [hr]
      exact decide_eq_decide.mpr hiff
    · intro htab hmax
      rw [hr] at hmax
      exact absurd ⟨List.length_pos.mpr htab, hmax⟩ hc
    · intro _
      rw [hr]

/-- Witness for C3 at `cfg = ⟨2, []⟩`, `attacking = 0`, `defending = 0` and a
constant raw-draw stream. -/
theorem roll_dice_correct_witness :
    (roll_dice ⟨2, []⟩ 0 0 ⟨fun _ => 0, 0⟩).1.2.2 =
      decide (min (0 : Int) 3 = 3 ∧
        min (0 : Int) ((2 : Nat) : Int) = ((2 : Nat) : Int)) :=
  (roll_dice_correct ⟨2, []⟩ (Or.inl rfl) 0 0 le_rfl le_rfl ⟨fun _ => 0, 0⟩).1

/-- The mutable locals of `simulate_battle`, plus the generator state. -/
structure BattleState where
  attacking : Int
  defending : Int
  totalAttackerLosses : Nat
  totalDefenderLosses : Nat
  maximumRolls : Nat
  nonMaximumRolls : Nat
  rng : Rng

/-- One iteration of the `while` loop body of `simulate_battle`: roll for
`(attacking_troops - 1, defending_troops)`, accumulate losses and round
tallies, subtract the losses from both troop counts. -/
def battleStep (cfg : Config) (s : BattleState) : BattleState :=
  let r := roll_dice cfg (s.attacking - 1) s.defending s.rng
  { attacking := s.attacking - r.1.1
    defending := s.defending - r.1.2.1
    totalAttackerLosses := s.totalAttackerLosses + r.1.1
    totalDefenderLosses := s.totalDefenderLosses + r.1.2.1
    maximumRolls := s.maximumRolls + (if r.1.2.2 then 1 else 0)
    nonMaximumRolls := s.nonMaximumRolls + (if r.1.2.2 then 0 else 1)
    rng := r.2 }

/-- The `while attacking_troops > 1 and defending_troops > 0` loop of
`simulate_battle`, embedded with explicit fuel: `none` means the loop was
still running after `fuel` iterations. -/
def battleLoop (cfg : Config) : Nat → BattleState → Option BattleState
  | 0, s => if 1 < s.attacking ∧ 0 < s.defending then none else some s
  | fuel + 1, s =>
    if 1 < s.attacking ∧ 0 < s.defending then
      battleLoop cfg fuel (battleStep cfg s)
    else some s

/-- Embedding of `simulate_battle` (wall-clock timing omitted): returns
`(total_attacker_losses, total_defender_losses, maximum_rolls,
non_maximum_rolls)` when the loop finishes within `fuel` iterations. -/
def simulate_battle (cfg : Config) (fuel : Nat) (attacking defending : Int) (g : Rng) :
    Option (Nat × Nat × Nat × Nat) :=
  (battleLoop cfg fuel ⟨attacking, defending, 0, 0, 0, 0, g⟩).map
    fun s => (s.totalAttackerLosses, s.totalDefenderLosses, s.maximumRolls, s.nonMaximumRolls)

/-- The table as the running program can actually have it: absent
(`--no-precomputed-rolls`) or precomputed for the configured mode. -/
def tableOK (cfg : Config) : Prop :=
  cfg.table = [] ∨ cfg.table = precompute_max_dice_rolls cfg.maxDefenders

/-- In any round the program can reach (troops committed on both sides, a
program table), the two losses sum to the number of paired dice and neither
side loses more troops than it committed. -/
theorem roll_dice_round_sum (cfg : Config)
    (hmd : cfg.maxDefenders = 2 ∨ cfg.maxDefenders = 3) (htab : tableOK cfg)
    (a d : Int) (ha : 1 ≤ a) (hd : 1 ≤ d) (g : Rng) :
    (roll_dice cfg a d g).1.1 + (roll_dice cfg a d g).1.2.1 =
      min (min a 3).toNat (min d (cfg.maxDefenders : Int)).toNat ∧
    ((roll_dice cfg a d g).1.1 : Int) ≤ a ∧
    ((roll_dice cfg a d g).1.2.1 : Int) ≤ d := by
  by_cases hc : 0 < cfg.table.length ∧
      (decide (3 ≤ min a 3 ∧ (cfg.maxDefenders : Int) ≤ min d (cfg.maxDefenders : Int)) : Bool) = true
  · have hr : roll_dice cfg a d g =
        (((cfg.table.getD (randint 0 (cfg.table.length - 1) g).1 (0, 0)).1,
          (cfg.table.getD (randint 0 (cfg.table.length - 1) g).1 (0, 0)).2,
          decide (3 ≤ min a 3 ∧ (cfg.maxDefenders : Int) ≤ min d (cfg.maxDefenders : Int))),
         (randint 0 (cfg.table.length - 1) g).2) := by
      simp only [roll_dice]
      rw [if_pos hc]
    have hflag := of_decide_eq_true hc.2
    have hidx : (randint 0 (cfg.table.length - 1) g).1 < cfg.table.length := by
      have hlen := hc.1
      simp only [randint]
      have h1 : cfg.table.length - 1 + 1 - 0 = cfg.table.length := by omega
      rw [h1]
      simpa using Nat.mod_lt (g.stream g.pos) hlen
    set e : Nat × Nat := cfg.table.getD (randint 0 (cfg.table.length - 1) g).1 (0, 0) with he
    have hmem : e ∈ cfg.table := by
      rw [he, List.getD_eq_getElem _ _ hidx]
      exact List.getElem_mem hidx
    rcases htab with hnil | hpre
    · rw [hnil] at hc
      simp at hc
    · rw [hpre] at hmem
      have hsum := precompute_entry_sum hmd hmem
      rw [hr]
      simp only []
      omega
  · have hr : roll_dice cfg a d g =
        (((calculate_losses (rollN (min a 3).toNat g).1
             (rollN (min d (cfg.maxDefenders : Int)).toNat (rollN (min a 3).toNat g).2).1).1,
          (calculate_losses (rollN (min a 3).toNat g).1
             (rollN (min d (cfg.maxDefenders : Int)).toNat (rollN (min a 3).toNat g).2).1).2,
          decide (3 ≤ min a 3 ∧ (cfg.maxDefenders : Int) ≤ min d (cfg.maxDefenders : Int))),
         (rollN (min d (cfg.maxDefenders : Int)).toNat (rollN (min a 3).toNat g).2).2) := by
      simp only [roll_dice]
      rw [if_neg hc]
    have hsum := calculate_losses_sum (rollN (min a 3).toNat g).1
      (rollN (min d (cfg.maxDefenders : Int)).toNat (rollN (min a 3).toNat g).2).1
    rw [rollN_length, rollN_length] at hsum
    rw [hr]
    simp only []
    omega

theorem battleLoop_some_exit (cfg : Config) :
    ∀ (fuel : Nat) (s s' : BattleState), battleLoop cfg fuel s = some s' →
      ¬(1 < s'.attacking ∧ 0 < s'.defending) := by
  intro fuel
  induction fuel with
  | zero =>
    intro s s' h
    by_cases hg : 1 < s.attacking ∧ 0 < s.defending
    · rw [battleLoop, if_pos hg] at h
      cases h
    · rw [battleLoop, if_neg hg] at h
      cases h
      exact hg
  | succ n ih =>
    intro s s' h
    by_cases hg : 1 < s.attacking ∧ 0 < s.defending
    · rw [battleLoop, if_pos hg] at h
      exact ih _ _ h
    · rw [battleLoop, if_neg hg] at h
      cases h
      exact hg

theorem battleLoop_terminates (cfg : Config)
    (hmd : cfg.maxDefenders = 2 ∨ cfg.maxDefenders = 3) (htab : tableOK cfg) :
    ∀ (fuel : Nat) (s : BattleState), (s.attacking + s.defending).toNat ≤ fuel →
      ∃ s', battleLoop cfg fuel s = some s' := by
  intro fuel
  induction fuel with
  | zero =>
    intro s hs
    by_cases hg : 1 < s.attacking ∧ 0 < s.defending
    · exfalso
      omega
    · exact ⟨s, by rw [battleLoop, if_neg hg]⟩
  | succ n ih =>
    intro s hs
    by_cases hg : 1 < s.attacking ∧ 0 < s.defending
    · rw [battleLoop, if_pos hg]
      apply ih
      have hb := roll_dice_round_sum cfg hmd htab (s.attacking - 1) s.defending
        (by omega) (by omega) s.rng
      have hb1 : 1 ≤ (roll_dice cfg (s.attacking - 1) s.defending s.rng).1.1 +
          (roll_dice cfg (s.attacking - 1) s.defending s.rng).1.2.1 := by
        rw [hb.1]
        rcases hmd with h2 | h2 <;> rw [h2] <;> omega
      have hb2 := hb.2
      show ((battleStep cfg s).attacking + (battleStep cfg s).defending).toNat ≤ n
      simp only [battleStep]
      omega
    · exact ⟨s, by rw [battleLoop, if_neg hg]⟩

/-- Claim C4 (amended): for every pair of integer starting troop counts and every
program configuration, the battle loop terminates within
`(attacking + defending).toNat` rounds — each executed round removes at least
one troop — and the final state satisfies the negated loop guard
`attacking ≤ 1 ∨ defending ≤ 0`. -/
theorem simulate_battle_terminates (cfg : Config)
    (hmd : cfg.maxDefenders = 2 ∨ cfg.maxDefenders = 3) (htab : tableOK cfg)
    (a d : Int) (g : Rng) :
    (battleLoop cfg (a + d).toNat ⟨a, d, 0, 0, 0, 0, g⟩).map
      (fun s => decide (s.attacking ≤ 1 ∨ s.defending ≤ 0)) = some true ∧
    (simulate_battle cfg (a + d).toNat a d g).isSome = true := by
  obtain ⟨s, hs⟩ := battleLoop_terminates cfg hmd htab (a + d).toNat
    ⟨a, d, 0, 0, 0, 0, g⟩ le_rfl
  have hexit := battleLoop_some_exit cfg _ _ _ hs
  constructor
  · rw [hs]
    show some (decide (s.attacking ≤ 1 ∨ s.defending ≤ 0)) = some true
    simp only [Option.some.injEq, decide_eq_true_eq]
    omega
  · unfold simulate_battle
    rw [hs]
    rfl

/-- Witness for C4 (amended) at `cfg = ⟨2, []⟩`, `attacking = 2`,
`defending = 1` and a constant raw-draw stream. -/
theorem simulate_battle_terminates_witness :
    (battleLoop ⟨2, []⟩ ((2 : Int) + 1).toNat ⟨2, 1, 0, 0, 0, 0, ⟨fun _ => 0, 0⟩⟩).map
      (fun s => decide (s.attacking ≤ 1 ∨ s.defending ≤ 0)) = some true ∧
    (simulate_battle ⟨2, []⟩ ((2 : Int) + 1).toNat 2 1 ⟨fun _ => 0, 0⟩).isSome = true :=
  simulate_battle_terminates ⟨2, []⟩ (Or.inl rfl) (Or.inl rfl) 2 1 ⟨fun _ => 0, 0⟩

/-- Counterexample for claim C4 as stated: starting from
`(attacking, defending) = (5, -1)` the loop exits immediately with
`defending = -1`, so the claimed exit condition
`attacking ≤ 1 ∨ defending == 0` is false there. -/
theorem simulate_battle_exit_counterexample :
    (battleLoop ⟨2, []⟩ 4 ⟨5, -1, 0, 0, 0, 0, ⟨fun _ => 0, 0⟩⟩).map
      (fun s => (s.attacking, s.defending)) = some (5, -1) ∧
    ¬((5 : Int) ≤ 1 ∨ (-1 : Int) = 0) :=
  ⟨rfl, by decide⟩

/-- The loop invariant of `simulate_battle` relative to the starting counts:
the attacker never drops below the reserved troop, the defender never goes
negative, and the running counts are the starting counts minus the
accumulated losses. -/
def battleInv (a0 d0 : Int) (s : BattleState) : Prop :=
  1 ≤ s.attacking ∧ 0 ≤ s.defending ∧
  s.attacking + s.totalAttackerLosses = a0 ∧
  s.defending + s.totalDefenderLosses = d0

theorem battleStep_inv (cfg : Config)
    (hmd : cfg.maxDefenders = 2 ∨ cfg.maxDefenders = 3) (htab : tableOK cfg)
    (a0 d0 : Int) (s : BattleState) (hinv : battleInv a0 d0 s)
    (hg : 1 < s.attacking ∧ 0 < s.defending) :
    battleInv a0 d0 (battleStep cfg s) := by
  have hb := roll_dice_round_sum cfg hmd htab (s.attacking - 1) s.defending
    (by omega) (by omega) s.rng
  have hb2 := hb.2
  obtain ⟨h1, h2, h3, h4⟩ := hinv
  refine ⟨?_, ?_, ?_, ?_⟩ <;>
    · simp only [battleStep]
      push_cast
      omega

theorem battleLoop_inv (cfg : Config)
    (hmd : cfg.maxDefenders = 2 ∨ cfg.maxDefenders = 3) (htab : tableOK cfg)
    (a0 d0 : Int) :
    ∀ (fuel : Nat) (s s' : BattleState), battleInv a0 d0 s →
      battleLoop cfg fuel s = some s' → battleInv a0 d0 s' := by
  intro fuel
  induction fuel with
  | zero =>
    intro s s' hinv h
    by_cases hg : 1 < s.attacking ∧ 0 < s.defending
    · rw [battleLoop, if_pos hg] at h
      cases h
    · rw [battleLoop, if_neg hg] at h
      cases h
      exact hinv
  | succ n ih =>
    intro s s' hinv h
    by_cases hg : 1 < s.attacking ∧ 0 < s.defending
    · rw [battleLoop, if_pos hg] at h
      exact ih _ _ (battleStep_inv cfg hmd htab a0 d0 s hinv hg) h
    · rw [battleLoop, if_neg hg] at h
      cases h
      exact hinv

/-- Claim C5: starting from `attacking ≥ 1` and `defending ≥ 0` with a program
configuration, whenever the battle loop returns, the accumulated attacker
losses are at most the starting attacker count minus the reserved troop, the
accumulated defender losses are at most the starting defender count, the
running counts stayed at `attacking ≥ 1` and `defending ≥ 0`, and the loop
stopped exactly because `attacking ≤ 1` or `defending = 0`. -/
theorem simulate_battle_loss_bounds (cfg : Config)
    (hmd : cfg.maxDefenders = 2 ∨ cfg.maxDefenders = 3) (htab : tableOK cfg)
    (a0 d0 : Int) (ha : 1 ≤ a0) (hd : 0 ≤ d0) (g : Rng) (fuel : Nat)
    (s : BattleState) (hs : battleLoop cfg fuel ⟨a0, d0, 0, 0, 0, 0, g⟩ = some s) :
    (s.totalAttackerLosses : Int) ≤ a0 - 1 ∧
    (s.totalDefenderLosses : Int) ≤ d0 ∧
    1 ≤ s.attacking ∧ 0 ≤ s.defending ∧
    (s.attacking ≤ 1 ∨ s.defending = 0) := by
  have hinv0 : battleInv a0 d0 ⟨a0, d0, 0, 0, 0, 0, g⟩ :=
    ⟨ha, hd, by simp, by simp⟩
  have hinv := battleLoop_inv cfg hmd htab a0 d0 fuel _ _ hinv0 hs
  have hexit := battleLoop_some_exit cfg fuel _ _ hs
  obtain ⟨h1, h2, h3, h4⟩ := hinv
  exact ⟨by omega, by omega, h1, h2, by omega⟩

/-- Witness for C5 at `cfg = ⟨2, []⟩`, starting counts `(1, 0)`, zero fuel
and a constant raw-draw stream: the loop exits at once with the all-zero
state. -/
theorem simulate_battle_loss_bounds_witness :
    (((⟨1, 0, 0, 0, 0, 0, ⟨fun _ => 0, 0⟩⟩ : BattleState).totalAttackerLosses : Int) ≤ 1 - 1) ∧
    (((⟨1, 0, 0, 0, 0, 0, ⟨fun _ => 0, 0⟩⟩ : BattleState).totalDefenderLosses : Int) ≤ 0) ∧
    1 ≤ (⟨1, 0, 0, 0, 0, 0, ⟨fun _ => 0, 0⟩⟩ : BattleState).attacking ∧
    0 ≤ (⟨1, 0, 0, 0, 0, 0, ⟨fun _ => 0, 0⟩⟩ : BattleState).defending ∧
    ((⟨1, 0, 0, 0, 0, 0, ⟨fun _ => 0, 0⟩⟩ : BattleState).attacking ≤ 1 ∨
      (⟨1, 0, 0, 0, 0, 0, ⟨fun _ => 0, 0⟩⟩ : BattleState).defending = 0) :=
  simulate_battle_loss_bounds ⟨2, []⟩ (Or.inl rfl) (Or.inl rfl) 1 0 (by decide) (by decide)
    ⟨fun _ => 0, 0⟩ 0 ⟨1, 0, 0, 0, 0, 0, ⟨fun _ => 0, 0⟩⟩ rfl

/-- Claim C9: whenever the attacker starts with at most one troop, the battle loop
executes zero rounds and `simulate_battle` returns all-zero totals and round
counts without error, for any defender count; in particular
`simulate_battle(1, 5)` does. -/
theorem simulate_battle_min_attacker (cfg : Config) (fuel : Nat) (a d : Int)
    (ha : a ≤ 1) (g : Rng) :
    simulate_battle cfg fuel a d g = some (0, 0, 0, 0) ∧
    simulate_battle cfg fuel 1 5 g = some (0, 0, 0, 0) := by
  have key : ∀ a' d' : Int, a' ≤ 1 →
      simulate_battle cfg fuel a' d' g = some (0, 0, 0, 0) := by
    intro a' d' ha'
    have hg : ¬((1 : Int) < a' ∧ (0 : Int) < d') := by omega
    unfold simulate_battle
    cases fuel with
    | zero => rw [battleLoop, if_neg hg]; rfl
    | succ n => rw [battleLoop, if_neg hg]; rfl
  exact ⟨key a d ha, key 1 5 (by omega)⟩

/-- Witness for C9 at `cfg = ⟨2, []⟩`, `fuel = 3`, starting counts `(1, 5)`
and a constant raw-draw stream. -/
theorem simulate_battle_min_attacker_witness :
    simulate_battle ⟨2, []⟩ 3 1 5 ⟨fun _ => 0, 0⟩ = some (0, 0, 0, 0) ∧
    simulate_battle ⟨2, []⟩ 3 1 5 ⟨fun _ => 0, 0⟩ = some (0, 0, 0, 0) :=
  simulate_battle_min_attacker ⟨2, []⟩ 3 1 5 (by decide) ⟨fun _ => 0, 0⟩

/-- Claim C10: with at least two attacking troops but a non-positive (possibly
strictly negative) defender count, the battle loop executes zero rounds and
`simulate_battle` returns all-zero totals and round counts without error:
the non-positive defender count is silently accepted as already terminal. -/
theorem simulate_battle_nonpos_defender (cfg : Config) (fuel : Nat) (a d : Int)
    (ha : 2 ≤ a) (hd : d ≤ 0) (g : Rng) :
    simulate_battle cfg fuel a d g = some (0, 0, 0, 0) := by
  have hg : ¬((1 : Int) < a ∧ (0 : Int) < d) := by omega
  unfold simulate_battle
  cases fuel with
  | zero => rw [battleLoop, if_neg hg]; rfl
  | succ n => rw [battleLoop, if_neg hg]; rfl

/-- Witness for C10 at `cfg = ⟨2, []⟩`, `fuel = 3`, starting counts
`(2, -3)` and a constant raw-draw stream. -/
theorem simulate_battle_nonpos_defender_witness :
    simulate_battle ⟨2, []⟩ 3 2 (-3) ⟨fun _ => 0, 0⟩ = some (0, 0, 0, 0) :=
  simulate_battle_nonpos_defender ⟨2, []⟩ 3 2 (-3) (by decide) (by decide) ⟨fun _ => 0, 0⟩

theorem battleLoop_of_not_guard (cfg : Config) (fuel : Nat) (s : BattleState)
    (hg : ¬(1 < s.attacking ∧ 0 < s.defending)) : battleLoop cfg fuel s = some s := by
  cases fuel with
  | zero => rw [battleLoop, if_neg hg]
  | succ n => rw [battleLoop, if_neg hg]

/-- One output line of a trial, minus the wall-clock `elapsed_time` field
(not part of the embedding): attacker losses, defender losses, their
difference, and the maximal / non-maximal round tallies. -/
structure TrialRecord where
  attackerLosses : Nat
  defenderLosses : Nat
  difference : Int
  maxRolls : Nat
  nonMaxRolls : Nat

/-- Embedding of the `for trial in range(args.trials)` loop of `main`: run
`n` battles back to back, threading the process-wide generator state from
one trial into the next, and emit one record per trial with
`difference = total_defender_losses - total_attacker_losses`.  `main`
performs no validation of the troop counts before this loop.  (If a battle
exhausts its fuel — which cannot happen for a sufficient fuel bound — the
loop stops emitting.) -/
def runTrials (cfg : Config) (fuel : Nat) (a d : Int) : Nat → Rng → List TrialRecord × Rng
  | 0, g => ([], g)
  | n + 1, g =>
    match battleLoop cfg fuel ⟨a, d, 0, 0, 0, 0, g⟩ with
    | none => ([], g)
    | some s =>
      let record : TrialRecord :=
        ⟨s.totalAttackerLosses, s.totalDefenderLosses,
         (s.totalDefenderLosses : Int) - (s.totalAttackerLosses : Int),
         s.maximumRolls, s.nonMaximumRolls⟩
      let rest := runTrials cfg fuel a d n s.rng
      (record :: rest.1, rest.2)

/-- Modelled from the spec: `random.seed(s)` (Python standard library, not
part of the repository sources) puts the process-wide generator into a state
that is a pure function of the seed, so that "all subsequent rolls (direct
or via table indexing) must be fully determined by that seed and the
sequence of calls" (§4.1).  The concrete stream is an arbitrary
deterministic stand-in for the seeded Mersenne Twister. -/
def rngOfSeed (seed : Int) : Rng :=
  ⟨fun n => seed.natAbs + n, 0⟩

/-- Claim C6: with the same non-zero seed and the same configuration (troop
counts, battle mode, table, trial count), two runs of the trial loop produce
identical trial records, field by field; the embedding carries no
`elapsed_time` field, the one field the claim exempts. -/
theorem seeded_trials_deterministic (seed : Int) (hs : seed ≠ 0) (cfg : Config)
    (fuel : Nat) (a d : Int) (n : Nat) (r1 r2 : List TrialRecord)
    (h1 : r1 = (runTrials cfg fuel a d n (rngOfSeed seed)).1)
    (h2 : r2 = (runTrials cfg fuel a d n (rngOfSeed seed)).1) :
    r1 = r2 ∧
    r1.map TrialRecord.attackerLosses = r2.map TrialRecord.attackerLosses ∧
    r1.map TrialRecord.defenderLosses = r2.map TrialRecord.defenderLosses ∧
    r1.map TrialRecord.difference = r2.map TrialRecord.difference ∧
    r1.map TrialRecord.maxRolls = r2.map TrialRecord.maxRolls ∧
    r1.map TrialRecord.nonMaxRolls = r2.map TrialRecord.nonMaxRolls := by
  subst h1
  subst h2
  exact ⟨rfl, rfl, rfl, rfl, rfl, rfl⟩

/-- Witness for C6 at seed 1, `cfg = ⟨2, []⟩`, one trial of a `(2, 1)`
battle. -/
theorem seeded_trials_deterministic_witness :
    (runTrials ⟨2, []⟩ 3 2 1 1 (rngOfSeed 1)).1 =
      (runTrials ⟨2, []⟩ 3 2 1 1 (rngOfSeed 1)).1 ∧
    ((runTrials ⟨2, []⟩ 3 2 1 1 (rngOfSeed 1)).1).map TrialRecord.attackerLosses =
      ((runTrials ⟨2, []⟩ 3 2 1 1 (rngOfSeed 1)).1).map TrialRecord.attackerLosses ∧
    ((runTrials ⟨2, []⟩ 3 2 1 1 (rngOfSeed 1)).1).map TrialRecord.defenderLosses =
      ((runTrials ⟨2, []⟩ 3 2 1 1 (rngOfSeed 1)).1).map TrialRecord.defenderLosses ∧
    ((runTrials ⟨2, []⟩ 3 2 1 1 (rngOfSeed 1)).1).map TrialRecord.difference =
      ((runTrials ⟨2, []⟩ 3 2 1 1 (rngOfSeed 1)).1).map TrialRecord.difference ∧
    ((runTrials ⟨2, []⟩ 3 2 1 1 (rngOfSeed 1)).1).map TrialRecord.maxRolls =
      ((runTrials ⟨2, []⟩ 3 2 1 1 (rngOfSeed 1)).1).map TrialRecord.maxRolls ∧
    ((runTrials ⟨2, []⟩ 3 2 1 1 (rngOfSeed 1)).1).map TrialRecord.nonMaxRolls =
      ((runTrials ⟨2, []⟩ 3 2 1 1 (rngOfSeed 1)).1).map TrialRecord.nonMaxRolls :=
  seeded_trials_deterministic 1 (by decide) ⟨2, []⟩ 3 2 1 1 _ _ rfl rfl

/-- Claim C7 (amended): the program performs no troop-count validation at all; a
configuration with non-positive attacking troops or negative defending
troops is accepted, the trial loop runs normally, and it emits one all-zero
record per trial (each such battle just executes zero rounds) while leaving
the generator untouched. -/
theorem runTrials_no_validation (cfg : Config) (fuel : Nat) (a d : Int)
    (h : a ≤ 0 ∨ d < 0) (n : Nat) (g : Rng) :
    (runTrials cfg fuel a d n g).1 = List.replicate n ⟨0, 0, 0, 0, 0⟩ ∧
    (runTrials cfg fuel a d n g).2 = g := by
  induction n generalizing g with
  | zero => exact ⟨rfl, rfl⟩
  | succ n ih =>
    have hg : ¬((1 : Int) < a ∧ (0 : Int) < d) := by omega
    have hb := battleLoop_of_not_guard cfg fuel ⟨a, d, 0, 0, 0, 0, g⟩ hg
    rw [runTrials, hb]
    simp only [List.replicate_succ]
    obtain ⟨ih1, ih2⟩ := ih g
    refine ⟨?_, ih2⟩
    rw [ih1]
    norm_num

/-- Witness for C7 (amended) at `cfg = ⟨2, []⟩`, `attacking = 0`,
`defending = 5`, one trial. -/
theorem runTrials_no_validation_witness :
    (runTrials ⟨2, []⟩ 1 0 5 1 ⟨fun _ => 0, 0⟩).1 = List.replicate 1 ⟨0, 0, 0, 0, 0⟩ ∧
    (runTrials ⟨2, []⟩ 1 0 5 1 ⟨fun _ => 0, 0⟩).2 = ⟨fun _ => 0, 0⟩ :=
  runTrials_no_validation ⟨2, []⟩ 1 0 5 (Or.inl (by decide)) 1 ⟨fun _ => 0, 0⟩

/-- Counterexample for claim C7 as stated: with `attacking = 0` (a
non-positive attacking troop count) and `defending = 5`, the trial loop does
emit a trial record — there is no `InvalidTroopCount` rejection anywhere in
the program. -/
theorem runTrials_no_validation_counterexample :
    (runTrials ⟨2, []⟩ 1 0 5 1 ⟨fun _ => 0, 0⟩).1 = [⟨0, 0, 0, 0, 0⟩] ∧
    (runTrials ⟨2, []⟩ 1 0 5 1 ⟨fun _ => 0, 0⟩).1 ≠ [] := by
  constructor
  · rfl
  · intro h
    rw [show (runTrials ⟨2, []⟩ 1 0 5 1 ⟨fun _ => 0, 0⟩).1 =
      [⟨0, 0, 0, 0, 0⟩] from rfl] at h
    exact List.cons_ne_nil _ _ h

/-- Claim C8 (amended): `calculate_losses` sorts both caller lists in place
(descending), so the caller-visible order of each input can change; what is
preserved is the multiset of values (the post-call lists are permutations of
the inputs, namely their descending sorts), and the loss pair is a freshly
constructed pair of counts. -/
theorem calculate_losses_mutates_by_sorting (ar dr : List Nat) :
    ((calculate_losses_st ar dr).2.1).Perm ar ∧
    ((calculate_losses_st ar dr).2.2).Perm dr ∧
    (calculate_losses_st ar dr).2.1 = sortDesc ar ∧
    (calculate_losses_st ar dr).2.2 = sortDesc dr ∧
    ((calculate_losses_st ar dr).2.1).Sorted (· ≥ ·) ∧
    ((calculate_losses_st ar dr).2.2).Sorted (· ≥ ·) ∧
    (calculate_losses_st ar dr).1 = calculate_losses ar dr :=
  ⟨sortDesc_perm ar, sortDesc_perm dr, rfl, rfl,
   sortDesc_sorted ar, sortDesc_sorted dr, rfl⟩

/-- Counterexample for claim C8 as stated: passing `[1, 2]` as the
attacker rolls leaves the caller's list as `[2, 1]` — the in-place
descending sort is an externally observable mutation of the input's order. -/
theorem calculate_losses_mutation_counterexample :
    (calculate_losses_st [1, 2] [1]).2.1 = [2, 1] ∧ [2, 1] ≠ [1, 2] :=
  ⟨rfl, by decide⟩

end RiskDice
